import Mathlib

/-!
Verification of the caching account decorator of mettete/eclipse-wallet.

The file embeds `src/accounts/CachedBlockchainAccount.js` (the proxy) in
Lean: cache-key derivation, the category each cached method uses, and the
pass-through methods.  The cache store itself (`src/utils/cache.js`,
required by the proxy) is not among the sources; where a claim depends on
its behaviour the store is modelled from the specification (sections 3 to 5
of spec.md) and the relevant definitions say so in their doc comments.
-/

namespace EclipseWallet

/-- Cache categories.  The source references the members
`CACHE_TYPES.BALANCE`, `NFTS_ALL`, `SINGLE_NFT`, `NFTS`, `TRANSACTIONS`,
`AVAILABLE_TOKENS`, `FEATURED_TOKENS` of the (absent) cache module.
Modelled from the spec: the spec's closed enumeration additionally lists
`NFTS_GROUPED` (and does not list `NFTS`), so the type carries the union of
the tokens referenced by the source and the members enumerated by the
spec. -/
inductive CacheTy where
  | BALANCE
  | NFTS_ALL
  | SINGLE_NFT
  | NFTS
  | NFTS_GROUPED
  | TRANSACTIONS
  | AVAILABLE_TOKENS
  | FEATURED_TOKENS
deriving DecidableEq, Repr

/-- Identity of a cache entry: the string key handed to `cache(key, type, factory)`
together with the category argument.  Modelled from the spec: entries of
different categories are independent (spec section 3, "Categories are
independent"). -/
abbrev CacheKey : Type := String × CacheTy

/-- The identity fields of an account that enter cache keys:
`this.network.id` and `this.base.getReceiveAddress()`. -/
structure AccountIdent where
  networkId : String
  receiveAddress : String
deriving DecidableEq, Repr

/-- Source `baseKey()`: `` `${this.network.id}-${this.base.getReceiveAddress()}` ``. -/
def baseKey (a : AccountIdent) : String :=
  a.networkId ++ "-" ++ a.receiveAddress

/-- Source `getBalance`: `key = this.baseKey()`, category `CACHE_TYPES.BALANCE`. -/
def getBalanceEntry (a : AccountIdent) : CacheKey :=
  (baseKey a, CacheTy.BALANCE)

/-- Source `getAllNfts`: `key = this.baseKey()`, category `CACHE_TYPES.NFTS_ALL`. -/
def getAllNftsEntry (a : AccountIdent) : CacheKey :=
  (baseKey a, CacheTy.NFTS_ALL)

/-- Source `getNft` key: `` `${this.baseKey()}-${args.join('-')}` ``. -/
def getNftKey (a : AccountIdent) (args : List String) : String :=
  baseKey a ++ "-" ++ String.intercalate "-" args

/-- Source `getNft`: the derived key with category `CACHE_TYPES.SINGLE_NFT`. -/
def getNftEntry (a : AccountIdent) (args : List String) : CacheKey :=
  (getNftKey a args, CacheTy.SINGLE_NFT)

/-- Source `getAllNftsGrouped`: `key = this.baseKey()`, category `CACHE_TYPES.NFTS`. -/
def getAllNftsGroupedEntry (a : AccountIdent) : CacheKey :=
  (baseKey a, CacheTy.NFTS)

/-- Source `getRecentTransactions`: `key = this.baseKey()`, category
`CACHE_TYPES.TRANSACTIONS`; the method receives `...args` but they do not
enter the key. -/
def getRecentTransactionsEntry (α : Type) (a : AccountIdent) (_args : List α) : CacheKey :=
  (baseKey a, CacheTy.TRANSACTIONS)

/-- Source `getAvailableTokens`: `key = this.network.id`, category
`CACHE_TYPES.AVAILABLE_TOKENS`; the receive address does not appear. -/
def getAvailableTokensEntry (a : AccountIdent) : CacheKey :=
  (a.networkId, CacheTy.AVAILABLE_TOKENS)

/-- Source `getFeaturedTokens`: `key = this.network.id`, category
`CACHE_TYPES.FEATURED_TOKENS`; the receive address does not appear. -/
def getFeaturedTokensEntry (a : AccountIdent) : CacheKey :=
  (a.networkId, CacheTy.FEATURED_TOKENS)

/-- The `(key, category)` pair that every per-account cached method whose
key is `this.baseKey()` passes to `cache` (`getBalance`, `getAllNfts`,
`getAllNftsGrouped`, `getRecentTransactions` with their respective
categories). -/
def accountEntry (a : AccountIdent) (c : CacheTy) : CacheKey :=
  (baseKey a, c)

/-! ### Cache store model

Modelled from the spec: `src/utils/cache.js` (the `cache` function required
by the proxy) is not among the sources.  Sections 3 to 5 of spec.md describe
it: a keyed map of entries, an entry is Pending (with waiters) or Ready
(with a value and a production time); `getOrCompute` returns a Ready value
whose age is below the category TTL, joins an outstanding Pending
computation, and otherwise atomically registers a Pending entry and starts
the factory exactly once; when the factory resolves, all waiters receive
its single result. -/

/-- State of one cache entry: an outstanding computation with its list of
waiting callers, or a memoized value with its production time. -/
inductive EntrySt (V : Type) where
  | pending (waiters : List Nat)
  | ready (value : V) (producedAt : Nat)
deriving DecidableEq, Repr

/-- The process-wide key-to-entry map (spec section 5: the only shared
mutable resource). -/
structure Store (V : Type) where
  entries : CacheKey → Option (EntrySt V)

/-- Point update of the entry map. -/
def updateEntries {V : Type} (f : CacheKey → Option (EntrySt V)) (k : CacheKey)
    (e : Option (EntrySt V)) : CacheKey → Option (EntrySt V) :=
  fun k' => if k' = k then e else f k'

/-- One caller's atomic bookkeeping step of `getOrCompute` at time `now`
(spec sections 4.1 and 5): a fresh Ready entry is returned at once; a
Pending entry is joined; otherwise the entry is treated as absent, a
Pending entry holding the caller is installed and the factory is started.
Returns the new store, the immediate result if any, and whether this step
started a factory invocation. -/
def arrive {V : Type} (ttl now : Nat) (st : Store V) (k : CacheKey) (caller : Nat) :
    Store V × Option V × Bool :=
  match st.entries k with
  | some (EntrySt.ready v t) =>
      if now - t < ttl then (st, some v, false)
      else (⟨updateEntries st.entries k (some (EntrySt.pending [caller]))⟩, none, true)
  | some (EntrySt.pending ws) =>
      (⟨updateEntries st.entries k (some (EntrySt.pending (ws ++ [caller])))⟩, none, false)
  | none =>
      (⟨updateEntries st.entries k (some (EntrySt.pending [caller]))⟩, none, true)

/-- Process a list of concurrent callers arriving at the same key, in
arrival order.  Returns the final store, the number of factory invocations
started, and each caller's immediate result. -/
def arriveAll {V : Type} (ttl now : Nat) (st : Store V) (k : CacheKey) :
    List Nat → Store V × Nat × List (Option V)
  | [] => (st, 0, [])
  | c :: cs =>
      let r := arrive ttl now st k c
      let rest := arriveAll ttl now r.1 k cs
      (rest.1, (if r.2.2 then 1 else 0) + rest.2.1, r.2.1 :: rest.2.2)

/-- The outstanding factory for `k` resolves with value `fv` at time `now`:
the entry becomes Ready and every waiter receives `fv` (spec section 3: the
result of the single underlying computation).  Returns the new store and the
list of callers to which `fv` is delivered. -/
def resolve {V : Type} (st : Store V) (k : CacheKey) (fv : V) (now : Nat) :
    Store V × List Nat :=
  match st.entries k with
  | some (EntrySt.pending ws) =>
      (⟨updateEntries st.entries k (some (EntrySt.ready fv now))⟩, ws)
  | _ => (st, [])

/-- The whole concurrent scenario of spec section 8 (Singleflight): the
callers `cs` all invoke `getOrCompute` for key `k` at time `now`, then the
single outstanding factory resolves with `fv`.  Returns the final store, the
number of factory invocations, the immediate results, and the callers to
which the resolution delivers `fv`. -/
def runConcurrent {V : Type} (ttl now : Nat) (st : Store V) (k : CacheKey)
    (cs : List Nat) (fv : V) : Store V × Nat × List (Option V) × List Nat :=
  let a := arriveAll ttl now st k cs
  let r := resolve a.1 k fv now
  (r.1, a.2.1, a.2.2, r.2)

/-- No fresh entry exists for `k` and no computation is outstanding: the
map has no entry, or only a Ready entry whose age has reached the TTL. -/
def noFreshEntry {V : Type} (ttl now : Nat) (st : Store V) (k : CacheKey) : Prop :=
  st.entries k = none ∨
    ∃ v t, st.entries k = some (EntrySt.ready v t) ∧ ¬ (now - t < ttl)

/-- One complete sequential call to `getOrCompute` when no computation is
outstanding for the key: a fresh Ready value is returned without invoking
the factory; otherwise the factory runs to completion and its value is
installed and returned.  Modelled from the spec (section 4.1). -/
def seqCall {V : Type} (ttl now : Nat) (st : Store V) (k : CacheKey)
    (factory : Unit → V) : Store V × V × Bool :=
  match arrive ttl now st k 0 with
  | (_, some v, _) => (st, v, false)
  | (st1, none, _) =>
      let fv := factory ()
      ((resolve st1 k fv now).1, fv, true)

/-- Source `getRecentTransactions(...args)`: key `this.baseKey()`, category
`CACHE_TYPES.TRANSACTIONS`, factory `() => this.base.getRecentTransactions(...args)`,
run through the (spec-modelled) store. -/
def getRecentTransactionsCall {α V : Type} (ttl now : Nat) (st : Store V)
    (a : AccountIdent) (baseFn : List α → V) (args : List α) : Store V × V × Bool :=
  seqCall ttl now st (baseKey a, CacheTy.TRANSACTIONS) (fun _ => baseFn args)

/-! ### Pass-through methods

The proxy's non-cached methods each read `return this.base.<name>(...args)`
(or `return this.base.<name>()` for the methods declared without
parameters).  Method names are modelled as one inductive type shared by the
proxy surface and the base capability set, so "the method of the same name"
is equality of names. -/

/-- Method names occurring in CachedBlockchainAccount.js: every proxy
method name and every base method it invokes.  `getNftsBids` is the base
name invoked by the proxy's `getNftBids` (source line 180). -/
inductive MethodName where
  | retrieveSecurePrivateKey
  | getConnection
  | getCredit
  | getTokens
  | getReceiveAddress
  | getOrCreateTokenAccount
  | validateDestinationAccount
  | airdrop
  | getCollectionGroup
  | getCollection
  | getCollectionItems
  | getListedNfts
  | getNftBids
  | getNftsBids
  | createNftBurnTx
  | confirmNftBurn
  | getBestSwapQuote
  | expireSwapQuote
  | estimateTransactionsFee
  | estimateTransferFee
  | createTransferTransaction
  | confirmTransferTransaction
  | createSwapTransaction
  | listNft
  | unlistNft
  | buyNft
  | bidNft
  | cancelBidNft
  | getTransaction
  | getDomain
  | getDomainFromPublicKey
  | getPublicKeyFromDomain
  | scanTransactions
deriving DecidableEq, Repr

/-- The non-cached proxy methods declared `(...args)` that forward their
argument list to the base account. -/
def passThroughVariadic : List MethodName :=
  [MethodName.getReceiveAddress, MethodName.getOrCreateTokenAccount,
   MethodName.validateDestinationAccount, MethodName.airdrop,
   MethodName.getCollectionGroup, MethodName.getCollection,
   MethodName.getCollectionItems, MethodName.getListedNfts,
   MethodName.getNftBids, MethodName.createNftBurnTx,
   MethodName.confirmNftBurn, MethodName.getBestSwapQuote,
   MethodName.expireSwapQuote, MethodName.estimateTransactionsFee,
   MethodName.estimateTransferFee, MethodName.createTransferTransaction,
   MethodName.confirmTransferTransaction, MethodName.createSwapTransaction,
   MethodName.listNft, MethodName.unlistNft, MethodName.buyNft,
   MethodName.bidNft, MethodName.cancelBidNft, MethodName.getTransaction,
   MethodName.getDomainFromPublicKey, MethodName.getPublicKeyFromDomain,
   MethodName.scanTransactions]

/-- The non-cached proxy methods declared with no parameters, forwarding no
arguments. -/
def passThroughNullary : List MethodName :=
  [MethodName.retrieveSecurePrivateKey, MethodName.getConnection,
   MethodName.getCredit, MethodName.getTokens, MethodName.getDomain]

/-- Which base method each pass-through proxy method invokes.  From the
source: every pass-through body calls the base method of the same name,
except `getNftBids`, whose body is `return this.base.getNftsBids(...args)`. -/
def delegateTarget : MethodName → MethodName
  | MethodName.getNftBids => MethodName.getNftsBids
  | m => m

/-- The base account, as the proxy sees it: a family of operations indexed
by method name, each taking an argument list and producing an outcome.  The
outcome type `R` is opaque (it stands for the settled promise, value or
failure, which the proxy relays unchanged). -/
structure Base (A R : Type) where
  call : MethodName → List A → R

/-- One invocation of a base method: the outcome together with the
single-call trace recording which base method ran and with which
arguments. -/
def invokeBase {A R : Type} (b : Base A R) (m : MethodName) (args : List A) :
    R × List (MethodName × List A) :=
  (b.call m args, [(m, args)])

/-- Body of a variadic pass-through proxy method
(`return this.base.<target>(...args)`). -/
def proxyPassVar {A R : Type} (b : Base A R) (m : MethodName) (args : List A) :
    R × List (MethodName × List A) :=
  invokeBase b (delegateTarget m) args

/-- Body of a parameterless pass-through proxy method
(`return this.base.<target>()`). -/
def proxyPassNull {A R : Type} (b : Base A R) (m : MethodName) :
    R × List (MethodName × List A) :=
  invokeBase b (delegateTarget m) []

/-! ### Helper lemmas -/

lemma string_append_cancel_left {s t u : String} (h : s ++ t = s ++ u) : t = u := by
  apply String.ext
  have hd : (s ++ t).data = (s ++ u).data := by rw [h]
  rw [String.data_append, String.data_append] at hd
  exact List.append_cancel_left hd

lemma getNftKey_eq_iff (a : AccountIdent) (xs ys : List String) :
    getNftKey a xs = getNftKey a ys ↔
      String.intercalate "-" xs = String.intercalate "-" ys := by
  constructor
  · intro h
    unfold getNftKey at h
    exact string_append_cancel_left h
  · intro h
    unfold getNftKey
    rw [h]

lemma arriveAll_pending {V : Type} (ttl now : Nat) (k : CacheKey) (cs : List Nat) :
    ∀ (st : Store V) (ws : List Nat),
      st.entries k = some (EntrySt.pending ws) →
      (arriveAll ttl now st k cs).1.entries k
          = some (EntrySt.pending (ws ++ cs)) ∧
      (arriveAll ttl now st k cs).2.1 = 0 ∧
      (arriveAll ttl now st k cs).2.2 = List.replicate cs.length none := by
  induction cs with
  | nil =>
      intro st ws h
      simpa [arriveAll] using h
  | cons c cs ih =>
      intro st ws h
      have harr : arrive ttl now st k c
          = (⟨updateEntries st.entries k (some (EntrySt.pending (ws ++ [c])))⟩,
             none, false) := by
        simp [arrive, h]
      have hmid : (⟨updateEntries st.entries k
            (some (EntrySt.pending (ws ++ [c])))⟩ : Store V).entries k
          = some (EntrySt.pending (ws ++ [c])) := by
        simp [updateEntries]
      have := ih (⟨updateEntries st.entries k
            (some (EntrySt.pending (ws ++ [c])))⟩) (ws ++ [c]) hmid
      simp only [arriveAll, harr]
      refine ⟨?_, ?_, ?_⟩
      · rw [this.1]
        simp [List.append_assoc]
      · simp [this.2.1]
      · simp [this.2.2, List.replicate]

lemma arriveAll_noFresh {V : Type} (ttl now : Nat) (k : CacheKey) (st : Store V)
    (c : Nat) (cs : List Nat) (h : noFreshEntry ttl now st k) :
    (arriveAll ttl now st k (c :: cs)).1.entries k
        = some (EntrySt.pending (c :: cs)) ∧
    (arriveAll ttl now st k (c :: cs)).2.1 = 1 ∧
    (arriveAll ttl now st k (c :: cs)).2.2
        = List.replicate (c :: cs).length none := by
  have harr : arrive ttl now st k c
      = (⟨updateEntries st.entries k (some (EntrySt.pending [c]))⟩, none, true) := by
    rcases h with h | ⟨v, t, h, hstale⟩
    · simp [arrive, h]
    · simp [arrive, h, hstale]
  have hmid : (⟨updateEntries st.entries k
        (some (EntrySt.pending [c]))⟩ : Store V).entries k
      = some (EntrySt.pending [c]) := by
    simp [updateEntries]
  have hrest := arriveAll_pending (V := V) ttl now k cs
      (⟨updateEntries st.entries k (some (EntrySt.pending [c]))⟩) [c] hmid
  simp only [arriveAll, harr]
  refine ⟨?_, ?_, ?_⟩
  · rw [hrest.1]
    simp
  · simp [hrest.2.1]
  · simp [hrest.2.2, List.replicate]

lemma seqCall_absent {V : Type} (ttl now : Nat) (st : Store V) (k : CacheKey)
    (f : Unit → V) (h : st.entries k = none) :
    (seqCall ttl now st k f).2.1 = f () ∧
    (seqCall ttl now st k f).2.2 = true ∧
    (seqCall ttl now st k f).1.entries k
        = some (EntrySt.ready (f ()) now) := by
  simp [seqCall, arrive, h, resolve, updateEntries]

lemma seqCall_fresh {V : Type} (ttl now : Nat) (st : Store V) (k : CacheKey)
    (f : Unit → V) (v : V) (t : Nat)
    (h : st.entries k = some (EntrySt.ready v t)) (hf : now - t < ttl) :
    seqCall ttl now st k f = (st, v, false) := by
  simp [seqCall, arrive, h, hf]

/-! ### Claims -/

/-- C3 counterexample: `getNft` joins its arguments with `-`, so the
distinct argument tuples `["a", "b-c"]` and `["a-b", "c"]` derive the same
cache key on the same account; the encoding is not collision-resistant. -/
theorem C3_counterexample :
    (["a", "b-c"] : List String) ≠ ["a-b", "c"] ∧
    getNftKey ⟨"n", "addr"⟩ ["a", "b-c"] = getNftKey ⟨"n", "addr"⟩ ["a-b", "c"] ∧
    getNftEntry ⟨"n", "addr"⟩ ["a", "b-c"] = getNftEntry ⟨"n", "addr"⟩ ["a-b", "c"] := by
  refine ⟨by decide, by decide, by decide⟩

/-- C3 (amended): `getNft` serializes its argument list by dash-joining,
which is deterministic but not collision-resistant: on the same account two
argument tuples derive the same cache key exactly when their dash-joined
serializations are equal, so distinct tuples whose joins coincide alias to
one key. -/
theorem C3_joinKey (a : AccountIdent) (xs ys : List String) :
    getNftKey a xs = getNftKey a ys ↔
      String.intercalate "-" xs = String.intercalate "-" ys :=
  getNftKey_eq_iff a xs ys

/-- C3 witness: two distinct tuples with equal joins share the key. -/
theorem C3_joinKey_witness :
    getNftKey ⟨"n", "x"⟩ ["p", "q"] = getNftKey ⟨"n", "x"⟩ ["p-q"] :=
  (C3_joinKey ⟨"n", "x"⟩ ["p", "q"] ["p-q"]).mpr (by decide)

/-- C4 counterexample: two distinct account identities, `networkId = "a"`
with address `"b-c"` and `networkId = "a-b"` with address `"c"`, produce the
same `baseKey` string `"a-b-c"`, so with the same category (BALANCE) they
share one cache entry — distinct (networkId, receiveAddress, category)
triples do not always map to distinct entries. -/
theorem C4_counterexample :
    (AccountIdent.mk "a" "b-c" ≠ AccountIdent.mk "a-b" "c") ∧
    getBalanceEntry ⟨"a", "b-c"⟩ = getBalanceEntry ⟨"a-b", "c"⟩ := by
  refine ⟨by decide, by decide⟩

/-- C4 (amended): distinct categories never share an entry, whatever the
identities; for one category, per-account entries coincide exactly when the
`networkId-receiveAddress` strings coincide — which can happen for distinct
identity pairs whose components contain the dash separator. -/
theorem C4_isolation (a1 a2 : AccountIdent) (c1 c2 : CacheTy) :
    (c1 ≠ c2 → accountEntry a1 c1 ≠ accountEntry a2 c2) ∧
    (accountEntry a1 c1 = accountEntry a2 c1 ↔ baseKey a1 = baseKey a2) := by
  constructor
  · intro hc h
    exact hc (congrArg Prod.snd h)
  · constructor
    · intro h
      exact congrArg Prod.fst h
    · intro h
      unfold accountEntry
      rw [h]

/-- C4 witness: different categories isolate, and equal base keys share. -/
theorem C4_isolation_witness :
    accountEntry ⟨"n", "x"⟩ CacheTy.BALANCE ≠ accountEntry ⟨"n", "y"⟩ CacheTy.NFTS_ALL ∧
    accountEntry ⟨"n", "x"⟩ CacheTy.BALANCE = accountEntry ⟨"n", "x"⟩ CacheTy.BALANCE :=
  ⟨(C4_isolation ⟨"n", "x"⟩ ⟨"n", "y"⟩ CacheTy.BALANCE CacheTy.NFTS_ALL).1 (by decide),
   (C4_isolation ⟨"n", "x"⟩ ⟨"n", "x"⟩ CacheTy.BALANCE CacheTy.BALANCE).2.mpr rfl⟩

/-- C5: each un-parameterized per-account cached lookup (`getBalance`,
`getAllNfts`, `getAllNftsGrouped`, `getRecentTransactions`) derives its
cache entry deterministically from exactly the network id, the receive
address and the operation's category: the key string is
`networkId-receiveAddress` and the category is the operation's fixed one;
for `getRecentTransactions` the argument list does not enter the key. -/
theorem C5_accountKeys {α : Type} (a : AccountIdent) (args : List α) :
    getBalanceEntry a = (a.networkId ++ "-" ++ a.receiveAddress, CacheTy.BALANCE) ∧
    getAllNftsEntry a = (a.networkId ++ "-" ++ a.receiveAddress, CacheTy.NFTS_ALL) ∧
    getAllNftsGroupedEntry a = (a.networkId ++ "-" ++ a.receiveAddress, CacheTy.NFTS) ∧
    getRecentTransactionsEntry α a args
        = (a.networkId ++ "-" ++ a.receiveAddress, CacheTy.TRANSACTIONS) :=
  ⟨rfl, rfl, rfl, rfl⟩

/-- C6: `getAvailableTokens` and `getFeaturedTokens` derive their cache
entries from the network id and the category only — the receive address is
absent — so any two accounts on the same network share each entry. -/
theorem C6_networkKeys (a1 a2 : AccountIdent) (h : a1.networkId = a2.networkId) :
    getAvailableTokensEntry a1 = (a1.networkId, CacheTy.AVAILABLE_TOKENS) ∧
    getFeaturedTokensEntry a1 = (a1.networkId, CacheTy.FEATURED_TOKENS) ∧
    getAvailableTokensEntry a1 = getAvailableTokensEntry a2 ∧
    getFeaturedTokensEntry a1 = getFeaturedTokensEntry a2 := by
  refine ⟨rfl, rfl, ?_, ?_⟩ <;>
    simp [getAvailableTokensEntry, getFeaturedTokensEntry, h]

/-- C6 witness: two accounts on network `"n"` with different addresses
share both network-scoped entries. -/
theorem C6_networkKeys_witness :
    getAvailableTokensEntry ⟨"n", "x"⟩ = getAvailableTokensEntry ⟨"n", "y"⟩ ∧
    getFeaturedTokensEntry ⟨"n", "x"⟩ = getFeaturedTokensEntry ⟨"n", "y"⟩ :=
  ⟨(C6_networkKeys ⟨"n", "x"⟩ ⟨"n", "y"⟩ rfl).2.2.1,
   (C6_networkKeys ⟨"n", "x"⟩ ⟨"n", "y"⟩ rfl).2.2.2⟩

/-- C7 counterexample: the category under which `getAllNftsGrouped` caches
is the source's `CACHE_TYPES.NFTS`, not `NFTS_GROUPED`. -/
theorem C7_counterexample :
    (getAllNftsGroupedEntry ⟨"n", "x"⟩).2 ≠ CacheTy.NFTS_GROUPED := by
  decide

/-- C7 (amended): `getAllNftsGrouped` is cached under the source's category
token `NFTS`, which is distinct from the `NFTS_GROUPED` member of the
spec's enumeration. -/
theorem C7_groupedCategory (a : AccountIdent) :
    getAllNftsGroupedEntry a = (baseKey a, CacheTy.NFTS) ∧
    CacheTy.NFTS ≠ CacheTy.NFTS_GROUPED :=
  ⟨rfl, by decide⟩

/-- C7 witness: the amended statement at a concrete account. -/
theorem C7_groupedCategory_witness :
    getAllNftsGroupedEntry ⟨"n", "x"⟩ = (baseKey ⟨"n", "x"⟩, CacheTy.NFTS) :=
  (C7_groupedCategory ⟨"n", "x"⟩).1

/-- C8: for any account, `getNft` with argument `"mint-123"` and with
argument `"mint-456"` derive distinct cache entries, although both extend
the same account-level base key. -/
theorem C8_distinctNftKeys (a : AccountIdent) :
    getNftEntry a ["mint-123"] ≠ getNftEntry a ["mint-456"] := by
  intro h
  have hk : getNftKey a ["mint-123"] = getNftKey a ["mint-456"] :=
    congrArg Prod.fst h
  have hj := (getNftKey_eq_iff a ["mint-123"] ["mint-456"]).mp hk
  exact absurd hj (by decide)

/-- C8 witness: the two entries differ at a concrete account. -/
theorem C8_distinctNftKeys_witness :
    getNftEntry ⟨"n", "x"⟩ ["mint-123"] ≠ getNftEntry ⟨"n", "x"⟩ ["mint-456"] :=
  C8_distinctNftKeys ⟨"n", "x"⟩

/-- C1 (singleflight, store modelled from the spec): if the callers `cs`
concurrently request key `k` while no fresh entry exists and no computation
is outstanding, exactly one factory invocation is started, no caller is
served any other value immediately, and the single resolution delivers its
one value `fv` to exactly the callers `cs`, leaving the entry Ready. -/
theorem C1_singleflight {V : Type} (ttl now : Nat) (st : Store V) (k : CacheKey)
    (cs : List Nat) (fv : V) (hne : cs ≠ [])
    (hnf : noFreshEntry ttl now st k) :
    (runConcurrent ttl now st k cs fv).2.1 = 1 ∧
    (runConcurrent ttl now st k cs fv).2.2.1 = List.replicate cs.length none ∧
    (runConcurrent ttl now st k cs fv).2.2.2 = cs ∧
    (runConcurrent ttl now st k cs fv).1.entries k
        = some (EntrySt.ready fv now) := by
  cases cs with
  | nil => exact absurd rfl hne
  | cons c cs' =>
      have ha := arriveAll_noFresh ttl now k st c cs' hnf
      have hres : resolve (arriveAll ttl now st k (c :: cs')).1 k fv now
          = (⟨updateEntries (arriveAll ttl now st k (c :: cs')).1.entries k
              (some (EntrySt.ready fv now))⟩, c :: cs') := by
        simp [resolve, ha.1]
      refine ⟨?_, ?_, ?_, ?_⟩
      · simp [runConcurrent, ha.2.1]
      · simp [runConcurrent, ha.2.2]
      · simp [runConcurrent, hres]
      · simp [runConcurrent, hres, updateEntries]

/-- C1 witness: three concurrent callers on an empty store, one factory
start, all three delivered the value 42. -/
theorem C1_singleflight_witness :
    (runConcurrent 30 5 (⟨fun _ => none⟩ : Store Nat)
        ("net-addr", CacheTy.BALANCE) [0, 1, 2] 42).2.1 = 1 ∧
    (runConcurrent 30 5 (⟨fun _ => none⟩ : Store Nat)
        ("net-addr", CacheTy.BALANCE) [0, 1, 2] 42).2.2.1
        = List.replicate (3 : Nat) none ∧
    (runConcurrent 30 5 (⟨fun _ => none⟩ : Store Nat)
        ("net-addr", CacheTy.BALANCE) [0, 1, 2] 42).2.2.2 = [0, 1, 2] ∧
    (runConcurrent 30 5 (⟨fun _ => none⟩ : Store Nat)
        ("net-addr", CacheTy.BALANCE) [0, 1, 2] 42).1.entries
        ("net-addr", CacheTy.BALANCE) = some (EntrySt.ready 42 5) :=
  C1_singleflight 30 5 ⟨fun _ => none⟩ ("net-addr", CacheTy.BALANCE)
    [0, 1, 2] 42 (by decide) (Or.inl rfl)

/-- C2: every variadic pass-through proxy method other than `getNftBids`
invokes the base method of the same name once with the unchanged argument
list and returns its outcome unchanged; every parameterless pass-through
method invokes the base method of the same name once with no arguments and
returns its outcome unchanged. -/
theorem C2_passthrough {A R : Type} (b : Base A R) (m : MethodName)
    (args : List A) (hm : m ∈ passThroughVariadic)
    (hne : m ≠ MethodName.getNftBids) :
    proxyPassVar b m args = (b.call m args, [(m, args)]) ∧
    ∀ m' ∈ passThroughNullary,
      proxyPassNull b m' = (b.call m' [], [(m', [])]) := by
  constructor
  · cases m <;>
      first
        | rfl
        | exact absurd rfl hne
  · intro m' hm'
    revert hm'
    cases m' <;> intro hm' <;>
      first
        | rfl
        | exact absurd hm' (by decide)

/-- C2 witness: `createTransferTransaction` forwarded with arguments
`[1, 2]` on a concrete base. -/
theorem C2_passthrough_witness :
    proxyPassVar (⟨fun _ _ => (0 : Nat)⟩ : Base Nat Nat)
        MethodName.createTransferTransaction [1, 2]
      = ((⟨fun _ _ => (0 : Nat)⟩ : Base Nat Nat).call
          MethodName.createTransferTransaction [1, 2],
         [(MethodName.createTransferTransaction, [1, 2])]) :=
  (C2_passthrough ⟨fun _ _ => (0 : Nat)⟩ MethodName.createTransferTransaction
    [1, 2] (by decide) (by decide)).1

/-- C9: the proxy's `getNftBids` forwards its argument list unchanged to
the base account's differently-named `getNftsBids`, invoking it exactly
once and returning its outcome unchanged. -/
theorem C9_bidsAdapter {A R : Type} (b : Base A R) (args : List A) :
    proxyPassVar b MethodName.getNftBids args
      = (b.call MethodName.getNftsBids args,
         [(MethodName.getNftsBids, args)]) ∧
    MethodName.getNftBids ≠ MethodName.getNftsBids :=
  ⟨rfl, by decide⟩

/-- C9 witness: the adapter at a concrete base and argument list. -/
theorem C9_bidsAdapter_witness :
    proxyPassVar (⟨fun _ _ => (0 : Nat)⟩ : Base Nat Nat)
        MethodName.getNftBids [5]
      = ((⟨fun _ _ => (0 : Nat)⟩ : Base Nat Nat).call
          MethodName.getNftsBids [5],
         [(MethodName.getNftsBids, [5])]) :=
  (C9_bidsAdapter (⟨fun _ _ => (0 : Nat)⟩ : Base Nat Nat) [5]).1

/-- C10 (store modelled from the spec): `getRecentTransactions` derives
the same cache entry whatever its argument list; after a first call with
arguments `xs` populates the entry at `t0`, a second call with different
arguments `ys` at a time `t1` inside the TTL returns the value computed
from `xs` without invoking the base method. -/
theorem C10_argsIgnored {α V : Type} (ttl t0 t1 : Nat) (st0 : Store V)
    (a : AccountIdent) (baseFn : List α → V) (xs ys : List α)
    (h0 : st0.entries (baseKey a, CacheTy.TRANSACTIONS) = none)
    (hfresh : t1 - t0 < ttl) :
    getRecentTransactionsEntry α a xs = getRecentTransactionsEntry α a ys ∧
    (getRecentTransactionsCall ttl t0 st0 a baseFn xs).2.1 = baseFn xs ∧
    (getRecentTransactionsCall ttl t0 st0 a baseFn xs).2.2 = true ∧
    (getRecentTransactionsCall ttl t1
        (getRecentTransactionsCall ttl t0 st0 a baseFn xs).1 a baseFn ys).2.1
      = baseFn xs ∧
    (getRecentTransactionsCall ttl t1
        (getRecentTransactionsCall ttl t0 st0 a baseFn xs).1 a baseFn ys).2.2
      = false := by
  have h1 := seqCall_absent ttl t0 st0 (baseKey a, CacheTy.TRANSACTIONS)
      (fun _ => baseFn xs) h0
  have h2 := seqCall_fresh ttl t1
      (seqCall ttl t0 st0 (baseKey a, CacheTy.TRANSACTIONS) (fun _ => baseFn xs)).1
      (baseKey a, CacheTy.TRANSACTIONS) (fun _ => baseFn ys)
      (baseFn xs) t0 h1.2.2 hfresh
  refine ⟨rfl, h1.1, h1.2.1, ?_, ?_⟩
  · simp [getRecentTransactionsCall, h2]
  · simp [getRecentTransactionsCall, h2]

/-- C10 witness: a second call with different arguments inside the TTL is
served the first call's value without a base invocation. -/
theorem C10_argsIgnored_witness :
    getRecentTransactionsEntry Nat ⟨"n", "x"⟩ [7]
        = getRecentTransactionsEntry Nat ⟨"n", "x"⟩ [8, 9] ∧
    (getRecentTransactionsCall 30 0 (⟨fun _ => none⟩ : Store Nat)
        ⟨"n", "x"⟩ List.length [7]).2.1 = List.length [7] ∧
    (getRecentTransactionsCall 30 0 (⟨fun _ => none⟩ : Store Nat)
        ⟨"n", "x"⟩ List.length [7]).2.2 = true ∧
    (getRecentTransactionsCall 30 1
        (getRecentTransactionsCall 30 0 (⟨fun _ => none⟩ : Store Nat)
          ⟨"n", "x"⟩ List.length [7]).1 ⟨"n", "x"⟩ List.length [8, 9]).2.1
      = List.length [7] ∧
    (getRecentTransactionsCall 30 1
        (getRecentTransactionsCall 30 0 (⟨fun _ => none⟩ : Store Nat)
          ⟨"n", "x"⟩ List.length [7]).1 ⟨"n", "x"⟩ List.length [8, 9]).2.2
      = false :=
  C10_argsIgnored 30 0 1 ⟨fun _ => none⟩ ⟨"n", "x"⟩ List.length [7] [8, 9]
    rfl (by decide)

end EclipseWallet
